import Mathlib

/-!
Verification of the asyncqueue task-queue core: a shallow embedding of the
serialization codec registry (`asyncqueue/serialization/_serialization.py`),
the log-stream (Redis) broker (`asyncqueue/broker/redis.py`) and the worker
runtime (`asyncqueue/worker.py` and `aiotaskqueue/worker.py`), together with
theorems about the spec's claims over that embedding.

Conventions of the embedding:
* argument values are drawn from a small concrete universe `Val`;
* byte strings are `List Nat`;
* Python code that can raise is embedded as `Option`-valued functions
  (`none` = an exception propagates);
* effects on the broker (Redis commands, channel sends) are reified as
  lists of commands emitted in program order.
-/

namespace AsyncQueue

/-- Byte payloads are opaque byte strings. -/
abbrev Bytes := List Nat

/-- A small concrete universe of argument values. -/
inductive Val where
  | vnat : Nat → Val
  | vstr : String → Val
deriving DecidableEq, Repr

/-- Embedding of the `SerializationBackend` protocol: a codec with a stable
id, a `serializable` predicate, and (fallible) serialize / deserialize.
`deserialize` receives the declared type as a type-name hint. -/
structure SerializationBackend where
  id : String
  serializable : Val → Bool
  serialize : Val → Option Bytes
  deserialize : Bytes → String → Option Val

/-- A `SerializationRegistry`: an insertion-ordered mapping
`backend_id → backend`, embedded as an association list (Python `dict`
iteration order is insertion order; keys are unique). -/
abbrev Registry := List (String × SerializationBackend)

/-- Mapping lookup `registry[backend_id]`; `none` embeds Python's `KeyError`. -/
def lookupBackend (reg : Registry) (backend_id : String) : Option SerializationBackend :=
  (reg.find? (fun kb => kb.1 == backend_id)).map (·.2)

/-- Association-list lookup for `kwarg_types[key]`; `none` embeds `KeyError`. -/
def lookupType (kwarg_types : List (String × String)) (key : String) : Option String :=
  (kwarg_types.find? (fun kt => kt.1 == key)).map (·.2)

/-- A Python comprehension that evaluates a fallible expression once per
element, left to right, aborting at the first exception. -/
def traverseOption (f : α → Option β) : List α → Option (List β)
  | [] => some []
  | a :: as =>
    (f a).bind (fun b => (traverseOption f as).bind (fun bs => some (b :: bs)))

/-- Embedding of `serialize` (`_serialization.py` lines 30-39): iterate the
registry's values in insertion order; the first backend whose
`serializable(value)` is true encodes the value under its own id; if none
claims it, the default backend encodes it. -/
def serialize (value : Val) (default_backend : SerializationBackend)
    (backends : Registry) : Option (String × Bytes) :=
  match backends.find? (fun kb => kb.2.serializable value) with
  | some kb => (kb.2.serialize value).map (fun bs => (kb.2.id, bs))
  | none => (default_backend.serialize value).map (fun bs => (default_backend.id, bs))

/-- Embedding of `TaskRecord` (`_serialization.py` lines 42-48), the wire
unit.  `requeue_count` is a Python `int`, so `Int` here; `enqueue_time` is
a timestamp, abstracted to `Int`. -/
structure TaskRecord where
  id : String
  task_name : String
  requeue_count : Int
  enqueue_time : Int
  args : List (String × Bytes)
  kwargs : List (String × String × Bytes)
deriving DecidableEq, Repr

/-- Embedding of `TaskDefinition`: name, ordered positional argument types
and named keyword argument types (type hints are type names). -/
structure TaskDefinition where
  name : String
  arg_types : List String
  kwarg_types : List (String × String)
deriving DecidableEq, Repr

/-- Embedding of `TaskInstance`: the definition it was created from plus the
captured positional and keyword arguments. -/
structure TaskInstance where
  defn : TaskDefinition
  args : List Val
  kwargs : List (String × Val)

/-- Embedding of `serialize_task` (`_serialization.py` lines 51-81): encode
each positional and each keyword argument independently via `serialize`,
then build the record with a fresh id, the current time and
`requeue_count = 0` (the msgspec default).  The fresh UUID and the current
UTC time are effects of the Python code and are passed in as `fresh_id`
and `now`. -/
def serialize_task (task : TaskInstance) (default_backend : SerializationBackend)
    (serialization_backends : Registry) (fresh_id : String) (now : Int) :
    Option TaskRecord :=
  (traverseOption (fun v => serialize v default_backend serialization_backends)
      task.args).bind (fun args =>
    (traverseOption
        (fun kv => (serialize kv.2 default_backend serialization_backends).map
          (fun p => (kv.1, p)))
        task.kwargs).bind (fun kwargs =>
      some { id := fresh_id
             task_name := task.defn.name
             requeue_count := 0
             enqueue_time := now
             args := args
             kwargs := kwargs }))

/-- Embedding of `deserialize_task` (`_serialization.py` lines 84-104): zip
the record's positional args with the definition's `arg_types`
non-strictly (`strict=False`, i.e. `List.zip`, truncating to the shorter
list) and decode each pair; decode each kwarg under the type declared for
its name.  A missing backend id or kwarg type name is a `KeyError`. -/
def deserialize_task (task_definition : TaskDefinition) (task : TaskRecord)
    (serialization_backends : Registry) :
    Option (List Val × List (String × Val)) :=
  (traverseOption
      (fun p =>
        (lookupBackend serialization_backends p.1.1).bind
          (fun b => b.deserialize p.1.2 p.2))
      (task.args.zip task_definition.arg_types)).bind (fun args =>
    (traverseOption
        (fun kv =>
          (lookupBackend serialization_backends kv.2.1).bind
            (fun b =>
              (lookupType task_definition.kwarg_types kv.1).bind
                (fun ty =>
                  (b.deserialize kv.2.2 ty).map (fun v => (kv.1, v)))))
        task.kwargs).bind (fun kwargs =>
      some (args, kwargs)))

/-- Modelled from the spec: the worker-facing part of `Configuration`
(`asyncqueue/config.py` is absent from `src/`).  The spec's §3 says the
configuration carries `max_delivery_attempts`, `healthcheck_interval`,
`timeout_interval` and the serialization registry; the worker source
accesses these as `configuration.task.max_delivery_attempts`,
`configuration.task.healthcheck_interval`, `configuration.task.timeout_interval`
and `configuration.serialization_backends`.  Intervals are in seconds. -/
structure TaskConfig where
  max_delivery_attempts : Int
  healthcheck_interval : Int
  timeout_interval : Int

/-- Modelled from the spec: the `Configuration` value object (§3), an
immutable object shared read-only by publisher, worker and broker. -/
structure Configuration where
  task : TaskConfig
  serialization_backends : Registry

/-- Embedding of `BrokerTask` (an envelope carrying a `TaskRecord` plus
broker-private metadata `M`, opaque to the worker). -/
structure BrokerTask (M : Type) where
  task : TaskRecord
  meta : M
deriving DecidableEq, Repr

/-- Embedding of `RedisMeta` (`redis.py` lines 25-27): the stream entry id. -/
structure RedisMeta where
  id : String
deriving DecidableEq, Repr

/-- Embedding of the identity part of `RedisBrokerConfig` plus the consumer
name (`redis.py` lines 30-46 and the `consumer_name` constructor argument). -/
structure RedisBrokerConfig where
  stream_name : String
  group_name : String
  consumer_name : String
deriving DecidableEq, Repr

/-- Redis commands the broker emits, reified in program order. -/
inductive RedisCmd where
  | xadd (stream : String) (record : TaskRecord)
  | xack (stream group entry_id : String)
  | xclaim (stream group consumer : String) (min_idle_time : Int)
      (message_ids : List String)
deriving DecidableEq, Repr

/-- Outcome of the code block executed inside a scoped context (`async with`):
either the block returns normally or an exception propagates out of it. -/
inductive ExecOutcome where
  | ok
  | raised
deriving DecidableEq, Repr

/-- Embedding of `RedisBroker.ack_context` (`redis.py` lines 193-201): the
`@asynccontextmanager` generator is a bare `yield` followed by an `xack`.
The statements after the `yield` run exactly when the body exits normally;
if the body raises, the exception is rethrown at the `yield` and, with no
`try` around it, propagates — the `xack` is skipped.  The result is the
list of Redis commands emitted by the context manager itself. -/
def ackContextCmds (cfg : RedisBrokerConfig) (task : BrokerTask RedisMeta)
    (body : ExecOutcome) : List RedisCmd :=
  match body with
  | .ok => [RedisCmd.xack cfg.stream_name cfg.group_name task.meta.id]
  | .raised => []

/-- Embedding of `RedisBroker.enqueue` (`redis.py` lines 78-83): a single
`xadd` of the encoded record onto the stream. -/
def enqueueCmd (cfg : RedisBrokerConfig) (task : TaskRecord) : RedisCmd :=
  RedisCmd.xadd cfg.stream_name task

/-- Embedding of `RedisBroker.tasks_healthcheck` (`redis.py` lines 203-211):
one `xclaim` with `min_idle_time=0` for the given tasks' entry ids, under
this consumer. -/
def tasksHealthcheckCmd (cfg : RedisBrokerConfig)
    (tasks : List (BrokerTask RedisMeta)) : RedisCmd :=
  RedisCmd.xclaim cfg.stream_name cfg.group_name cfg.consumer_name 0
    (tasks.map (fun t => t.meta.id))

/-- Embedding of the body of one sweep of
`RedisBroker._maintenance_claim_pending_records` (`redis.py` lines 163-182)
over the autoclaimed entries: for each `(record_id, record)` pair (the
record already decoded from the entry's `value` field), increment
`requeue_count`, re-enqueue the mutated record, then `xack` the stale
entry. -/
def maintenanceClaimStep (cfg : RedisBrokerConfig)
    (claimed : List (String × TaskRecord)) : List RedisCmd :=
  claimed.flatMap (fun m =>
    let task := { m.2 with requeue_count := m.2.requeue_count + 1 }
    [enqueueCmd cfg task,
     RedisCmd.xack cfg.stream_name cfg.group_name m.1])

/-- One reclamation of a record by the maintenance loop: the re-enqueued
record as a function of the decoded one. -/
def maintenanceBump (r : TaskRecord) : TaskRecord :=
  { r with requeue_count := r.requeue_count + 1 }

/-! Worker runtime (`asyncqueue/worker.py` and `aiotaskqueue/worker.py`).
`active_tasks : dict[str, BrokerTask]` is embedded as an association list
with Python-dict update semantics (assignment replaces in place, `pop`
removes the key). -/

/-- Python `dict` assignment `m[k] = v`: replace in place when the key is
present, append otherwise. -/
def dictInsert (m : List (String × α)) (k : String) (v : α) : List (String × α) :=
  if m.any (fun p => p.1 == k) then
    m.map (fun p => if p.1 == k then (k, v) else p)
  else
    m ++ [(k, v)]

/-- Python `dict.pop(k, None)`: remove the key if present. -/
def dictPop (m : List (String × α)) (k : String) : List (String × α) :=
  m.filter (fun p => p.1 != k)

/-- Python `dict` lookup, first match. -/
def dictLookup (m : List (String × α)) (k : String) : Option α :=
  (m.find? (fun p => p.1 == k)).map (·.2)

/-- Actions the dispatch loop performs on a batch, in program order:
`ackCmd t` is `await self._broker.ack(t)`, `sendCmd t` is
`await send.send(t)` onto the fan-out channel. -/
inductive DispatchAction (M : Type) where
  | ackCmd (t : BrokerTask M)
  | sendCmd (t : BrokerTask M)
deriving DecidableEq, Repr

/-- Embedding of the per-batch body of the `aiotaskqueue` dispatch loop
(`aiotaskqueue/worker.py` lines 99-106): for each message, if
`requeue_count >= max_delivery_attempts` the broker `ack` is awaited, and
then — with no `continue` — the message is unconditionally sent onto the
fan-out channel. -/
def dispatchBatchAio (config : Configuration) (batch : List (BrokerTask M)) :
    List (DispatchAction M) :=
  batch.flatMap (fun message =>
    if config.task.max_delivery_attempts ≤ message.task.requeue_count then
      [DispatchAction.ackCmd message, DispatchAction.sendCmd message]
    else
      [DispatchAction.sendCmd message])

/-- Embedding of the per-batch body of the `asyncqueue` dispatch loop
(`asyncqueue/worker.py` lines 82-83): every message of the batch is sent
onto the fan-out channel; there is no delivery-count gate at all. -/
def dispatchBatchAsy (batch : List (BrokerTask M)) : List (DispatchAction M) :=
  batch.map DispatchAction.sendCmd

/-- Result of one iteration of a dispatch loop: `forwarded` is the list of
dispatch actions performed (`none` when the raced read was cancelled and
its batch never consumed), `breaks` is whether the loop exits. -/
structure DispatchIterResult (M : Type) where
  forwarded : Option (List (DispatchAction M))
  breaks : Bool
deriving DecidableEq, Repr

/-- Embedding of one iteration of the `aiotaskqueue` dispatch loop
(`aiotaskqueue/worker.py` lines 89-109).  `asyncio.wait` with
`FIRST_COMPLETED` returns as soon as the read task or the stop wait
completes; `read_done` and `stop_set` are their completion states at that
moment (so `read_done || stop_set` holds whenever the wait returns), and
`batch` is `read_task.result()` when the read completed.  If the read is
not done the loop cancels it and breaks; otherwise it processes exactly
that raced read's batch and then breaks iff the stop event is set. -/
def dispatchIterAio (config : Configuration) (stop_set read_done : Bool)
    (batch : List (BrokerTask M)) : DispatchIterResult M :=
  if !read_done then
    { forwarded := none, breaks := true }
  else
    { forwarded := some (dispatchBatchAio config batch), breaks := stop_set }

/-- Embedding of one iteration of the `asyncqueue` dispatch loop
(`asyncqueue/worker.py` lines 72-86).  `asyncio.wait` with
`ALL_COMPLETED` returns only once BOTH the read task and the stop wait
have completed, so the result is `none` (the iteration never finishes)
unless `stop_set && read_done`.  When the wait does return, `read_task`
is done, so the cancel-and-break branch is not taken; the loop then calls
`self._broker.read()` a second time and forwards that second batch
(`batch2`), dropping the raced read's own batch (`batch1`, bound here
only to document that it is never used), and finally breaks because the
stop event is set. -/
def dispatchIterAsy (stop_set read_done : Bool)
    (batch1 batch2 : List (BrokerTask M)) : Option (DispatchIterResult M) :=
  if stop_set && read_done then
    let _ := batch1
    some { forwarded := some (dispatchBatchAsy batch2), breaks := stop_set }
  else
    none

/-- Embedding of one pass of the executor body (`asyncqueue/worker.py`
lines 103-116, `aiotaskqueue/worker.py` lines 126-133) over
`active_tasks`: record the task under `record.id` before opening the ack
scope; `raised` tells whether deserialisation or the callable raised
inside the scope.  On normal exit the id is popped; on an exception the
`pop` after the `async with` never runs, so the entry stays.  The second
component reports whether the exception propagates out of the fiber. -/
def executorStep (active : List (String × BrokerTask M)) (broker_task : BrokerTask M)
    (raised : Bool) : List (String × BrokerTask M) × Bool :=
  let active1 := dictInsert active broker_task.task.id broker_task
  if raised then
    (active1, true)
  else
    (dictPop active1 broker_task.task.id, false)

/-- Embedding of one wake-up of the heartbeat fiber
(`_claim_pending_tasks`, `asyncqueue/worker.py` lines 123-125): if
`active_tasks` is non-empty, call `tasks_healthcheck` with its values. -/
def heartbeatCmds (cfg : RedisBrokerConfig)
    (active : List (String × BrokerTask RedisMeta)) : List RedisCmd :=
  if active.isEmpty then []
  else [tasksHealthcheckCmd cfg (active.map (·.2))]

/-- Trace of an executor fiber (`_worker`) fed a sequence of broker tasks:
which tasks were acked, which bodies were attempted, whether the fiber
died on an exception, and which received tasks were left unprocessed. -/
structure ExecTrace (M : Type) where
  acked : List (BrokerTask M)
  attempted : List (BrokerTask M)
  crashed : Bool
  unprocessed : List (BrokerTask M)
deriving DecidableEq, Repr

/-- Embedding of the `_worker` executor fiber's `async for` loop
(`asyncqueue/worker.py` lines 102-119, `aiotaskqueue/worker.py` lines
125-136) over a finite sequence of received tasks.  `raises r` tells
whether looking up the definition, deserialising, or awaiting the
callable raises for record `r`.  There is no `try`/`except` in the loop
body and the broker's `ack_context` does not suppress exceptions, so the
first raising task terminates the coroutine: the remaining tasks are
never processed. -/
def workerFiber (raises : TaskRecord → Bool) :
    List (BrokerTask M) → ExecTrace M
  | [] => { acked := [], attempted := [], crashed := false, unprocessed := [] }
  | t :: ts =>
    if raises t.task then
      { acked := [], attempted := [t], crashed := true, unprocessed := ts }
    else
      let r := workerFiber raises ts
      { acked := t :: r.acked, attempted := t :: r.attempted,
        crashed := r.crashed, unprocessed := r.unprocessed }

/-- State assembled by `AsyncWorker.__init__` (`asyncqueue/worker.py` lines
19-35, `aiotaskqueue/worker.py` lines 35-52). -/
structure AsyncWorkerState (M : Type) where
  configuration : Configuration
  concurrency : Int
  stop_event : Bool
  active_tasks : List (String × BrokerTask M)

/-- Embedding of `AsyncWorker.__init__`: both implementations only assign
attributes, create the stop event unset and `active_tasks` empty.  The
result is `Option`-valued to record that construction could in principle
fail; the body has no assertion or other failure path, so it always
succeeds. -/
def asyncWorkerInit (M : Type) (configuration : Configuration) (concurrency : Int) :
    Option (AsyncWorkerState M) :=
  some { configuration := configuration
         concurrency := concurrency
         stop_event := false
         active_tasks := [] }

/-! Concrete fixtures used to evaluate the embedding on explicit inputs. -/

/-- A codec for `vnat` values: encodes `vnat n` as the byte string `[n]`. -/
def natBackend : SerializationBackend where
  id := "nat"
  serializable := fun v => match v with | .vnat _ => true | .vstr _ => false
  serialize := fun v => match v with | .vnat n => some [n] | .vstr _ => none
  deserialize := fun bs _ => match bs with | [n] => some (.vnat n) | _ => none

/-- A backend that claims no value at all. -/
def noneBackend : SerializationBackend where
  id := "no"
  serializable := fun _ => false
  serialize := fun _ => none
  deserialize := fun _ _ => none

/-- A catch-all default backend. -/
def defaultRaw : SerializationBackend where
  id := "raw"
  serializable := fun _ => true
  serialize := fun _ => some [9]
  deserialize := fun _ _ => none

/-- A one-backend registry keyed by the backend's own id. -/
def reg1 : Registry := [("nat", natBackend)]

/-- A concrete broker configuration (the source's defaults). -/
def cfg0 : RedisBrokerConfig :=
  { stream_name := "async-queue", group_name := "default", consumer_name := "w-1" }

/-- A concrete worker configuration with `max_delivery_attempts = 3`. -/
def cfg3 : Configuration :=
  { task := { max_delivery_attempts := 3, healthcheck_interval := 1, timeout_interval := 5 },
    serialization_backends := reg1 }

/-- A configuration violating `healthcheck_interval < timeout_interval`. -/
def badConfig : Configuration :=
  { task := { max_delivery_attempts := 3, healthcheck_interval := 5, timeout_interval := 5 },
    serialization_backends := reg1 }

/-- A concrete argument-free record with the given requeue count. -/
def sampleRecord (rc : Int) : TaskRecord :=
  { id := "task-1", task_name := "noop", requeue_count := rc, enqueue_time := 0,
    args := [], kwargs := [] }

/-- A concrete in-flight task with the given requeue count. -/
def sampleBrokerTask (rc : Int) : BrokerTask RedisMeta :=
  { task := sampleRecord rc, meta := { id := "1690000000000-0" } }

/-- A task whose requeue count has reached `max_delivery_attempts`. -/
def poisonTask : BrokerTask RedisMeta := sampleBrokerTask 3

/-- Two distinct fresh tasks for the dispatch-loop scenarios. -/
def taskA : BrokerTask RedisMeta :=
  { task := { id := "t-a", task_name := "noop", requeue_count := 0, enqueue_time := 0,
              args := [], kwargs := [] },
    meta := { id := "e-a" } }

/-- Second fresh task, distinct from `taskA`. -/
def taskB : BrokerTask RedisMeta :=
  { task := { id := "t-b", task_name := "noop", requeue_count := 0, enqueue_time := 0,
              args := [], kwargs := [] },
    meta := { id := "e-b" } }

/-- Raising behaviour used in the executor scenarios: the task named
`boom` raises, everything else returns normally. -/
def boomRaises : TaskRecord → Bool := fun r => r.task_name == "boom"

/-- A task whose body raises under `boomRaises`. -/
def badTask : BrokerTask RedisMeta :=
  { task := { id := "t-bad", task_name := "boom", requeue_count := 0, enqueue_time := 0,
              args := [], kwargs := [] },
    meta := { id := "e-bad" } }

/-- A task whose body succeeds under `boomRaises`. -/
def goodTask : BrokerTask RedisMeta :=
  { task := { id := "t-good", task_name := "noop", requeue_count := 0, enqueue_time := 0,
              args := [], kwargs := [] },
    meta := { id := "e-good" } }

/-! Claim theorems. -/

/-- C1: the spec requires the dispatcher to ack-drop a task whose
`requeue_count` has reached `max_delivery_attempts` and NOT forward it to
executors.  The code violates this: the `aiotaskqueue` dispatch loop acks
the poison pill but, lacking a `continue`, still sends it onto the fan-out
channel, and the `asyncqueue` dispatch loop has no gate at all, so an
executor can observe `requeue_count ≥ max_delivery_attempts`.  Evaluated
here on a task with `requeue_count = 3` under `max_delivery_attempts = 3`. -/
theorem C1_poison_pill_still_forwarded :
    cfg3.task.max_delivery_attempts ≤ poisonTask.task.requeue_count ∧
    dispatchBatchAio cfg3 [poisonTask]
      = [DispatchAction.ackCmd poisonTask, DispatchAction.sendCmd poisonTask] ∧
    DispatchAction.sendCmd poisonTask ∈ dispatchBatchAio cfg3 [poisonTask] ∧
    dispatchBatchAsy [poisonTask] = [DispatchAction.sendCmd poisonTask] := by
  refine ⟨by decide, rfl, ?_, rfl⟩
  rw [show dispatchBatchAio cfg3 [poisonTask]
      = [DispatchAction.ackCmd poisonTask, DispatchAction.sendCmd poisonTask] from rfl]
  exact List.mem_cons_of_mem _ (List.mem_singleton.mpr rfl)

/-- C3: the spec requires per-task error containment (one failing task never
terminates the worker).  The code violates this: `_worker` has no
`try`/`except` around the task body and `ack_context` does not suppress
exceptions, so the first raising task terminates the executor coroutine
and the subsequent task is never processed (and the exception then
propagates through the `asyncio.TaskGroup`, terminating `run()`).
Evaluated on the sequence `[badTask, goodTask]` where `badTask`'s body
raises. -/
theorem C3_task_error_kills_executor :
    boomRaises badTask.task = true ∧
    boomRaises goodTask.task = false ∧
    workerFiber boomRaises [badTask, goodTask]
      = { acked := [], attempted := [badTask], crashed := true,
          unprocessed := [goodTask] } := by
  exact ⟨rfl, rfl, rfl⟩

/-- C4: the spec prescribes racing `broker.read()` against the shutdown flag
with `FIRST_COMPLETED`, forwarding the raced read's own batch.  The
`aiotaskqueue` loop does exactly that (first two conjuncts: the raced
batch is forwarded when the read completed; when shutdown wins the read
is cancelled — nothing forwarded — and the loop breaks).  The
`asyncqueue` loop violates the claim: it waits with `ALL_COMPLETED` (the
iteration completes only after the stop event is set) and then calls
`broker.read()` a second time, forwarding the second batch `[taskB]`
while the raced read's batch `[taskA]` is dropped (it is never sent, as
the final conjunct records). -/
theorem C4_dispatch_loop_divergence :
    dispatchIterAio cfg3 false true [taskA]
      = { forwarded := some [DispatchAction.sendCmd taskA], breaks := false } ∧
    dispatchIterAio cfg3 true false ([] : List (BrokerTask RedisMeta))
      = { forwarded := none, breaks := true } ∧
    dispatchIterAsy true true [taskA] [taskB]
      = some { forwarded := some [DispatchAction.sendCmd taskB], breaks := true } ∧
    dispatchIterAsy false true [taskA] [taskB]
      = (none : Option (DispatchIterResult RedisMeta)) ∧
    (dispatchBatchAsy [taskB]).count (DispatchAction.sendCmd taskA) = 0 := by
  refine ⟨rfl, rfl, rfl, rfl, by decide⟩

/-- C5: the broker's `ack_context` acknowledges exactly on normal scope
exit: on normal exit it emits exactly one `xack` for the task's entry id,
and on abnormal exit it emits nothing, leaving the entry pending. -/
theorem C5_ack_context_acks_iff_normal_exit (cfg : RedisBrokerConfig)
    (task : BrokerTask RedisMeta) :
    ackContextCmds cfg task ExecOutcome.ok
      = [RedisCmd.xack cfg.stream_name cfg.group_name task.meta.id] ∧
    (ackContextCmds cfg task ExecOutcome.ok).count
      (RedisCmd.xack cfg.stream_name cfg.group_name task.meta.id) = 1 ∧
    ackContextCmds cfg task ExecOutcome.raised = [] := by
  refine ⟨rfl, ?_, rfl⟩
  simp [ackContextCmds]

/-- C9: the spec requires the implementation to assert
`healthcheck_interval < timeout_interval` at worker construction.  The
code violates this: neither `AsyncWorker.__init__` contains any
assertion, so construction succeeds even when
`healthcheck_interval ≥ timeout_interval`, as evaluated here on a
configuration with both intervals equal to 5. -/
theorem C9_no_construction_assert :
    badConfig.task.timeout_interval ≤ badConfig.task.healthcheck_interval ∧
    (asyncWorkerInit RedisMeta badConfig 1).isSome = true ∧
    asyncWorkerInit RedisMeta badConfig 1
      = some { configuration := badConfig, concurrency := 1, stop_event := false,
               active_tasks := [] } := by
  exact ⟨by decide, rfl, rfl⟩

/-! Helper lemmas about the dict embedding and the maintenance bump. -/

theorem maintenanceBump_iterate_requeue (r : TaskRecord) (k : Nat) :
    (maintenanceBump^[k] r).requeue_count = r.requeue_count + k := by
  induction k with
  | zero => simp
  | succ n ih =>
      rw [Function.iterate_succ_apply']
      show (maintenanceBump^[n] r).requeue_count + 1 = _
      rw [ih]
      push_cast
      ring

theorem bool_eq_false {b : Bool} (h : ¬(b = true)) : b = false := by
  cases b
  · rfl
  · exact absurd rfl h

theorem dictLookup_cons_self (p : String × α) (m : List (String × α)) {k : String}
    (h : (p.1 == k) = true) : dictLookup (p :: m) k = some p.2 := by
  have h' : ((fun q : String × α => q.1 == k) p) = true := h
  unfold dictLookup
  rw [List.find?_cons_of_pos m h']
  rfl

theorem dictLookup_cons_ne (p : String × α) (m : List (String × α)) {k : String}
    (h : (p.1 == k) = false) : dictLookup (p :: m) k = dictLookup m k := by
  have h' : ¬(((fun q : String × α => q.1 == k) p) = true) := by simp [h]
  unfold dictLookup
  rw [List.find?_cons_of_neg m h']

theorem dictLookup_map_update (m : List (String × α)) (k : String) (v : α)
    (h : m.any (fun p => p.1 == k) = true) :
    dictLookup (m.map (fun p => if p.1 == k then (k, v) else p)) k = some v := by
  induction m with
  | nil => simp at h
  | cons p rest ih =>
      rw [List.map_cons]
      by_cases hp : (p.1 == k) = true
      · rw [if_pos hp]
        exact dictLookup_cons_self (k, v) _ (by simp)
      · have hp' : (p.1 == k) = false := bool_eq_false hp
        rw [if_neg hp]
        rw [dictLookup_cons_ne p _ hp']
        apply ih
        simpa [List.any_cons, hp'] using h

theorem dictLookup_append_new (m : List (String × α)) (k : String) (v : α)
    (h : m.any (fun p => p.1 == k) = false) :
    dictLookup (m ++ [(k, v)]) k = some v := by
  induction m with
  | nil =>
      rw [List.nil_append]
      exact dictLookup_cons_self (k, v) _ (by simp)
  | cons p rest ih =>
      rw [List.cons_append]
      simp only [List.any_cons, Bool.or_eq_false_iff] at h
      rw [dictLookup_cons_ne p _ h.1]
      exact ih h.2

theorem dictLookup_dictInsert_self (m : List (String × α)) (k : String) (v : α) :
    dictLookup (dictInsert m k v) k = some v := by
  unfold dictInsert
  by_cases h : m.any (fun p => p.1 == k) = true
  · rw [if_pos h]
    exact dictLookup_map_update m k v h
  · rw [if_neg h]
    exact dictLookup_append_new m k v (bool_eq_false h)

theorem dictLookup_dictPop (m : List (String × α)) (k : String) :
    dictLookup (dictPop m k) k = none := by
  induction m with
  | nil => rfl
  | cons p rest ih =>
      by_cases hp : (p.1 == k) = true
      · have hbne : ¬(((fun q : String × α => q.1 != k) p) = true) := by
          simp [bne, hp]
        show dictLookup (List.filter (fun q => q.1 != k) (p :: rest)) k = none
        rw [@List.filter_cons_of_neg _ (fun q : String × α => q.1 != k) p rest hbne]
        exact ih
      · have hp' : (p.1 == k) = false := bool_eq_false hp
        have hbne : ((fun q : String × α => q.1 != k) p) = true := by
          simp [bne, hp']
        show dictLookup (List.filter (fun q => q.1 != k) (p :: rest)) k = none
        rw [@List.filter_cons_of_pos _ (fun q : String × α => q.1 != k) p rest hbne]
        rw [dictLookup_cons_ne p _ hp']
        exact ih

theorem dictInsert_isEmpty (m : List (String × α)) (k : String) (v : α) :
    (dictInsert m k v).isEmpty = false := by
  unfold dictInsert
  by_cases h : m.any (fun p => p.1 == k) = true
  · rw [if_pos h]
    cases m with
    | nil => simp at h
    | cons p rest => simp
  · rw [if_neg h]
    cases m <;> simp

theorem dictLookup_mem_values (m : List (String × α)) (k : String) (v : α)
    (h : dictLookup m k = some v) : v ∈ m.map (·.2) := by
  unfold dictLookup at h
  cases hf : m.find? (fun p => p.1 == k) with
  | none => rw [hf] at h; simp at h
  | some p =>
      rw [hf] at h
      simp only [Option.map_some'] at h
      cases h
      exact List.mem_map_of_mem _ (List.mem_of_find?_eq_some hf)

/-- Argument-free task instance used as a first-enqueue fixture. -/
def instEmpty : TaskInstance :=
  { defn := { name := "noop", arg_types := [], kwarg_types := [] },
    args := [], kwargs := [] }

/-- The record `serialize_task` produces for `instEmpty` with fresh id
`u-0` at time 0. -/
def recEmpty : TaskRecord :=
  { id := "u-0", task_name := "noop", requeue_count := 0, enqueue_time := 0,
    args := [], kwargs := [] }

/-- C6: for every entry claimed by the log-stream maintenance loop, the loop
emits, in order, a re-enqueue of a record identical to the decoded one
except that `requeue_count` is incremented by exactly one, followed by an
`xack` of the stale entry.  Moreover a record produced by
`serialize_task` starts with `requeue_count = 0`, after `k` reclamations
the count is the original plus `k` (hence monotonically non-decreasing),
and a record first enqueued and then reclaimed `k` times carries exactly
`k ≥ 0`. -/
theorem C6_maintenance_requeue (cfg : RedisBrokerConfig) (entry_id : String)
    (r : TaskRecord) (claimed : List (String × TaskRecord))
    (inst : TaskInstance) (default_backend : SerializationBackend) (reg : Registry)
    (fresh_id : String) (now : Int) (rec : TaskRecord) (k : Nat)
    (hser : serialize_task inst default_backend reg fresh_id now = some rec) :
    maintenanceClaimStep cfg ((entry_id, r) :: claimed)
      = enqueueCmd cfg (maintenanceBump r)
        :: RedisCmd.xack cfg.stream_name cfg.group_name entry_id
        :: maintenanceClaimStep cfg claimed ∧
    maintenanceBump r = { r with requeue_count := r.requeue_count + 1 } ∧
    rec.requeue_count = 0 ∧
    (maintenanceBump^[k] r).requeue_count = r.requeue_count + k ∧
    r.requeue_count ≤ (maintenanceBump^[k] r).requeue_count ∧
    (maintenanceBump^[k] rec).requeue_count = k := by
  have h0 : rec.requeue_count = 0 := by
    unfold serialize_task at hser
    obtain ⟨args, _hargs, hser⟩ := Option.bind_eq_some.mp hser
    obtain ⟨kwargs, _hkw, hser⟩ := Option.bind_eq_some.mp hser
    cases hser
    rfl
  refine ⟨rfl, rfl, h0, maintenanceBump_iterate_requeue r k, ?_, ?_⟩
  · rw [maintenanceBump_iterate_requeue]
    omega
  · rw [maintenanceBump_iterate_requeue, h0]
    simp

/-- C6 witness: the maintenance step evaluated on one concrete claimed
entry, and the requeue count after four reclamations of a freshly
serialised record. -/
theorem C6_maintenance_requeue_witness :
    maintenanceClaimStep cfg0 [("e-1", sampleRecord 2)]
      = enqueueCmd cfg0 (maintenanceBump (sampleRecord 2))
        :: RedisCmd.xack cfg0.stream_name cfg0.group_name "e-1"
        :: maintenanceClaimStep cfg0 [] ∧
    recEmpty.requeue_count = 0 ∧
    (maintenanceBump^[4] recEmpty).requeue_count = 4 := by
  obtain ⟨h1, _h2, h3, _h4, _h5, h6⟩ :=
    C6_maintenance_requeue cfg0 "e-1" (sampleRecord 2) [] instEmpty natBackend reg1
      "u-0" 0 recEmpty 4 rfl
  exact ⟨h1, h3, by exact_mod_cast h6⟩

/-- C10: the executor removes a task id from `active_tasks` only when the
ack scope exits normally.  If the body raises, the exception propagates
(`.2 = true`), the entry is still present under `record.id`, the
heartbeat's next `tasks_healthcheck` call is an `xclaim` with
`min_idle_time = 0` whose message ids include the failed task's entry id
(refreshing its broker-side idle timer); on normal exit the id is
removed. -/
theorem C10_failed_task_stays_active (cfg : RedisBrokerConfig)
    (active : List (String × BrokerTask RedisMeta)) (t : BrokerTask RedisMeta) :
    (executorStep active t true).2 = true ∧
    dictLookup (executorStep active t true).1 t.task.id = some t ∧
    heartbeatCmds cfg (executorStep active t true).1
      = [RedisCmd.xclaim cfg.stream_name cfg.group_name cfg.consumer_name 0
          (((executorStep active t true).1).map (fun p => p.2.meta.id))] ∧
    t.meta.id ∈ ((executorStep active t true).1).map (fun p => p.2.meta.id) ∧
    (executorStep active t false).2 = false ∧
    dictLookup (executorStep active t false).1 t.task.id = none := by
  refine ⟨rfl, ?_, ?_, ?_, rfl, ?_⟩
  · exact dictLookup_dictInsert_self active t.task.id t
  · show heartbeatCmds cfg (dictInsert active t.task.id t) = _
    unfold heartbeatCmds
    rw [dictInsert_isEmpty]
    simp only [tasksHealthcheckCmd, List.map_map, Bool.false_eq_true, if_false]
    rfl
  · have hv : t ∈ (dictInsert active t.task.id t).map (·.2) :=
      dictLookup_mem_values _ _ _ (dictLookup_dictInsert_self active t.task.id t)
    obtain ⟨p, hpmem, hpeq⟩ := List.mem_map.mp hv
    exact List.mem_map.mpr ⟨p, hpmem, by rw [hpeq]⟩
  · exact dictLookup_dictPop _ _

/-! Helper lemmas for the serialization claims. -/

theorem serialize_find_first (value : Val) (l₁ : Registry)
    (kb : String × SerializationBackend) (l₂ : Registry)
    (h1 : ∀ p ∈ l₁, p.2.serializable value = false)
    (h2 : kb.2.serializable value = true) :
    (l₁ ++ kb :: l₂).find? (fun q => q.2.serializable value) = some kb := by
  induction l₁ with
  | nil =>
      rw [List.nil_append]
      have h' : ((fun q : String × SerializationBackend =>
          q.2.serializable value) kb) = true := h2
      rw [List.find?_cons_of_pos l₂ h']
  | cons p rest ih =>
      rw [List.cons_append]
      have hp : ¬(((fun q : String × SerializationBackend =>
          q.2.serializable value) p) = true) := by
        simp [h1 p (List.mem_cons_self p rest)]
      rw [@List.find?_cons_of_neg _ (fun q : String × SerializationBackend =>
        q.2.serializable value) p (rest ++ kb :: l₂) hp]
      exact ih (fun q hq => h1 q (List.mem_cons_of_mem p hq))

theorem serialize_eq_of_find?_some (value : Val)
    (default_backend : SerializationBackend) {backends : Registry}
    {kb : String × SerializationBackend}
    (hf : backends.find? (fun q => q.2.serializable value) = some kb) :
    serialize value default_backend backends
      = (kb.2.serialize value).map (fun bs => (kb.2.id, bs)) := by
  unfold serialize
  rw [hf]

theorem serialize_eq_of_find?_none (value : Val)
    (default_backend : SerializationBackend) {backends : Registry}
    (hf : backends.find? (fun q => q.2.serializable value) = none) :
    serialize value default_backend backends
      = (default_backend.serialize value).map (fun bs => (default_backend.id, bs)) := by
  unfold serialize
  rw [hf]

theorem traverseOption_length {f : α → Option β} :
    ∀ {l : List α} {l' : List β}, traverseOption f l = some l' → l'.length = l.length
  | [], l', h => by
      unfold traverseOption at h
      cases h
      rfl
  | a :: as, l', h => by
      unfold traverseOption at h
      obtain ⟨b, _hb, h⟩ := Option.bind_eq_some.mp h
      obtain ⟨bs, hbs, h⟩ := Option.bind_eq_some.mp h
      cases h
      simp [traverseOption_length hbs]

/-- C7: `serialize` iterates the registry in insertion order and returns the
pair `(id, backend.serialize(value))` of the first backend whose
`serializable(value)` is true; if no backend claims the value it falls
back to `(default.id, default.serialize(value))`; and, assuming each
backend can encode what it claims, the operation fails only if the
default backend itself fails (in which case no registry backend claimed
the value). -/
theorem C7_serialize_first_match (value : Val)
    (default_backend : SerializationBackend) (backends : Registry) :
    (∀ l₁ kb l₂, backends = l₁ ++ kb :: l₂ →
        (∀ p ∈ l₁, p.2.serializable value = false) →
        kb.2.serializable value = true →
        serialize value default_backend backends
          = (kb.2.serialize value).map (fun bs => (kb.2.id, bs))) ∧
    ((∀ p ∈ backends, p.2.serializable value = false) →
        serialize value default_backend backends
          = (default_backend.serialize value).map
              (fun bs => (default_backend.id, bs))) ∧
    ((∀ p ∈ backends, p.2.serializable value = true →
          (p.2.serialize value).isSome = true) →
        serialize value default_backend backends = none →
        default_backend.serialize value = none ∧
        ∀ p ∈ backends, p.2.serializable value = false) := by
  refine ⟨?_, ?_, ?_⟩
  · intro l₁ kb l₂ heq h1 h2
    subst heq
    exact serialize_eq_of_find?_some value default_backend
      (serialize_find_first value l₁ kb l₂ h1 h2)
  · intro hall
    refine serialize_eq_of_find?_none value default_backend ?_
    rw [List.find?_eq_none]
    intro x hx
    simp [hall x hx]
  · intro hcontract hnone
    cases hf : backends.find? (fun q => q.2.serializable value) with
    | some kb =>
        exfalso
        have hmem : kb ∈ backends := List.mem_of_find?_eq_some hf
        have hcl : kb.2.serializable value = true := by
          simpa using List.find?_some hf
        obtain ⟨bs, hbs⟩ :=
          Option.isSome_iff_exists.mp (hcontract kb hmem hcl)
        rw [serialize_eq_of_find?_some value default_backend hf, hbs] at hnone
        simp at hnone
    | none =>
        have hall : ∀ p ∈ backends, p.2.serializable value = false := by
          intro x hx
          simpa using List.find?_eq_none.mp hf x hx
        refine ⟨?_, hall⟩
        rw [serialize_eq_of_find?_none value default_backend hf] at hnone
        exact Option.map_eq_none'.mp hnone

/-- A registry where a non-claiming backend precedes the claiming one. -/
def regMix : Registry := [("no", noneBackend), ("nat", natBackend)]

/-- C7 witness: on the two-backend registry `regMix` the first claiming
backend (`nat`) wins for a `vnat` value, and with no claiming backend the
default is used. -/
theorem C7_serialize_first_match_witness :
    serialize (Val.vnat 5) defaultRaw regMix = some ("nat", [5]) ∧
    serialize (Val.vstr "x") defaultRaw [("no", noneBackend)] = some ("raw", [9]) := by
  constructor
  · have h := (C7_serialize_first_match (Val.vnat 5) defaultRaw regMix).1
      [("no", noneBackend)] ("nat", natBackend) [] rfl (by decide) (by decide)
    rw [h]
    rfl
  · have h := (C7_serialize_first_match (Val.vstr "x") defaultRaw
      [("no", noneBackend)]).2.1 (by decide)
    rw [h]
    rfl

/-- Definition declaring a single positional `int` argument. -/
def tdOneArg : TaskDefinition :=
  { name := "add", arg_types := ["int"], kwarg_types := [] }

/-- A record carrying two encoded positional arguments — one more than
`tdOneArg` declares. -/
def recTwoArgs : TaskRecord :=
  { id := "u-2", task_name := "add", requeue_count := 0, enqueue_time := 0,
    args := [("nat", [1]), ("nat", [2])], kwargs := [] }

/-- C8 counterexample: the claim says extra positional arguments are never
silently dropped (the decoded count is never smaller than
`record.args.length`).  On a record with two encoded args against a
definition declaring one type, `deserialize_task` succeeds and returns a
single decoded argument: the extra item is silently truncated, neither
decoded without a hint nor an error. -/
theorem C8_counterexample_truncation :
    deserialize_task tdOneArg recTwoArgs reg1 = some ([Val.vnat 1], []) ∧
    recTwoArgs.args.length = 2 ∧
    ([Val.vnat 1] : List Val).length < recTwoArgs.args.length := by
  exact ⟨rfl, rfl, by decide⟩

/-- C8 amended: `deserialize_task` zips the record's positional args with
the definition's `arg_types` non-strictly, so whenever it succeeds the
number of decoded positional arguments is
`min record.args.length definition.arg_types.length` — extra record
entries beyond the declared types are silently dropped rather than
decoded or rejected. -/
theorem C8_deserialize_truncates (task_definition : TaskDefinition)
    (task : TaskRecord) (serialization_backends : Registry)
    (args : List Val) (kwargs : List (String × Val))
    (h : deserialize_task task_definition task serialization_backends
        = some (args, kwargs)) :
    args.length = min task.args.length task_definition.arg_types.length := by
  unfold deserialize_task at h
  obtain ⟨as, has, h⟩ := Option.bind_eq_some.mp h
  obtain ⟨ks, _hks, h⟩ := Option.bind_eq_some.mp h
  cases h
  rw [traverseOption_length has, List.length_zip]

/-- C8 witness: the amended truncation law evaluated on the concrete
two-args-against-one-type input. -/
theorem C8_deserialize_truncates_witness :
    ([Val.vnat 1] : List Val).length
      = min recTwoArgs.args.length tdOneArg.arg_types.length :=
  C8_deserialize_truncates tdOneArg recTwoArgs reg1 [Val.vnat 1] [] rfl

/-! Round-trip development for C2. -/

theorem lookupBackend_eq_dictLookup (reg : Registry) (bid : String) :
    lookupBackend reg bid = dictLookup reg bid := rfl

theorem lookupBackend_of_mem {reg : Registry}
    (hkeys : ∀ kb ∈ reg, kb.1 = kb.2.id)
    (hnodup : (reg.map (·.1)).Nodup)
    {kb : String × SerializationBackend} (hmem : kb ∈ reg) :
    lookupBackend reg kb.2.id = some kb.2 := by
  induction reg with
  | nil => cases hmem
  | cons p rest ih =>
      rw [List.map_cons, List.nodup_cons] at hnodup
      rw [lookupBackend_eq_dictLookup]
      rcases List.mem_cons.mp hmem with h | h
      · subst h
        have hk : kb.1 = kb.2.id := hkeys kb (List.mem_cons_self kb rest)
        exact dictLookup_cons_self kb rest (by simp [← hk])
      · have hk : kb.1 = kb.2.id := hkeys kb (List.mem_cons_of_mem p h)
        have hne : (p.1 == kb.2.id) = false := by
          rw [beq_eq_false_iff_ne]
          intro hcontra
          apply hnodup.1
          rw [hcontra, ← hk]
          exact List.mem_map_of_mem _ h
        rw [dictLookup_cons_ne p rest hne]
        exact ih (fun q hq => hkeys q (List.mem_cons_of_mem p hq)) hnodup.2 h

theorem serialize_roundtrip_one (value : Val)
    (default_backend : SerializationBackend) {reg : Registry}
    (hkeys : ∀ kb ∈ reg, kb.1 = kb.2.id)
    (hnodup : (reg.map (·.1)).Nodup)
    (hcodec : ∀ kb ∈ reg, ∀ v, kb.2.serializable v = true →
        ∃ bs, kb.2.serialize v = some bs ∧ ∀ t, kb.2.deserialize bs t = some v)
    (hcl : ∃ kb ∈ reg, kb.2.serializable value = true) :
    ∃ bid bs b, serialize value default_backend reg = some (bid, bs) ∧
      lookupBackend reg bid = some b ∧
      ∀ t, b.deserialize bs t = some value := by
  have hfind : (reg.find? (fun q => q.2.serializable value)).isSome := by
    rw [List.find?_isSome]
    obtain ⟨kb, hmem, hcl'⟩ := hcl
    exact ⟨kb, hmem, hcl'⟩
  obtain ⟨kb, hf⟩ := Option.isSome_iff_exists.mp hfind
  have hmem : kb ∈ reg := List.mem_of_find?_eq_some hf
  have hclkb : kb.2.serializable value = true := by
    simpa using List.find?_some hf
  obtain ⟨bs, hbs, hdec⟩ := hcodec kb hmem value hclkb
  refine ⟨kb.2.id, bs, kb.2, ?_, lookupBackend_of_mem hkeys hnodup hmem, hdec⟩
  rw [serialize_eq_of_find?_some value default_backend hf, hbs]
  rfl

theorem args_roundtrip (default_backend : SerializationBackend) {reg : Registry}
    (hkeys : ∀ kb ∈ reg, kb.1 = kb.2.id)
    (hnodup : (reg.map (·.1)).Nodup)
    (hcodec : ∀ kb ∈ reg, ∀ v, kb.2.serializable v = true →
        ∃ bs, kb.2.serialize v = some bs ∧ ∀ t, kb.2.deserialize bs t = some v) :
    ∀ (vs : List Val) (tys : List String),
      (∀ v ∈ vs, ∃ kb ∈ reg, kb.2.serializable v = true) →
      vs.length ≤ tys.length →
      ∃ encoded,
        traverseOption (fun v => serialize v default_backend reg) vs
          = some encoded ∧
        traverseOption
            (fun p => (lookupBackend reg p.1.1).bind
              (fun b => b.deserialize p.1.2 p.2))
            (encoded.zip tys) = some vs
  | [], tys, _, _ => ⟨[], rfl, rfl⟩
  | v :: vs, [], _, hlen => absurd hlen (by simp)
  | v :: vs, t :: tys, hser, hlen => by
      obtain ⟨bid, bs, b, hsv, hlook, hdec⟩ :=
        serialize_roundtrip_one v default_backend hkeys hnodup hcodec
          (hser v (List.mem_cons_self v vs))
      obtain ⟨encoded, henc, hdecs⟩ :=
        args_roundtrip default_backend hkeys hnodup hcodec vs tys
          (fun w hw => hser w (List.mem_cons_of_mem v hw))
          (by simpa using Nat.le_of_succ_le_succ hlen)
      refine ⟨(bid, bs) :: encoded, ?_, ?_⟩
      · unfold traverseOption
        rw [hsv, henc]
        rfl
      · rw [List.zip_cons_cons]
        unfold traverseOption
        simp only [hlook, Option.some_bind, hdec t, hdecs]

theorem kwargs_roundtrip (default_backend : SerializationBackend) {reg : Registry}
    (hkeys : ∀ kb ∈ reg, kb.1 = kb.2.id)
    (hnodup : (reg.map (·.1)).Nodup)
    (hcodec : ∀ kb ∈ reg, ∀ v, kb.2.serializable v = true →
        ∃ bs, kb.2.serialize v = some bs ∧ ∀ t, kb.2.deserialize bs t = some v)
    (kwarg_types : List (String × String)) :
    ∀ (kvs : List (String × Val)),
      (∀ kv ∈ kvs, ∃ kb ∈ reg, kb.2.serializable kv.2 = true) →
      (∀ kv ∈ kvs, (lookupType kwarg_types kv.1).isSome = true) →
      ∃ encoded,
        traverseOption
            (fun kv => (serialize kv.2 default_backend reg).map
              (fun p => (kv.1, p)))
            kvs = some encoded ∧
        traverseOption
            (fun kv => (lookupBackend reg kv.2.1).bind
              (fun b => (lookupType kwarg_types kv.1).bind
                (fun ty => (b.deserialize kv.2.2 ty).map (fun v => (kv.1, v)))))
            encoded = some kvs
  | [], _, _ => ⟨[], rfl, rfl⟩
  | kv :: kvs, hser, hty => by
      obtain ⟨bid, bs, b, hsv, hlook, hdec⟩ :=
        serialize_roundtrip_one kv.2 default_backend hkeys hnodup hcodec
          (hser kv (List.mem_cons_self kv kvs))
      obtain ⟨ty, hty0⟩ := Option.isSome_iff_exists.mp
        (hty kv (List.mem_cons_self kv kvs))
      obtain ⟨encoded, henc, hdecs⟩ :=
        kwargs_roundtrip default_backend hkeys hnodup hcodec kwarg_types kvs
          (fun w hw => hser w (List.mem_cons_of_mem kv hw))
          (fun w hw => hty w (List.mem_cons_of_mem kv hw))
      refine ⟨(kv.1, (bid, bs)) :: encoded, ?_, ?_⟩
      · unfold traverseOption
        rw [hsv, henc]
        rfl
      · unfold traverseOption
        simp only [hlook, hty0, Option.some_bind, hdec ty, hdecs]
        rfl

/-- C2 (amended): serialising a task instance and deserialising the
resulting record with the same registry and the task's own definition
restores exactly the original `(args, kwargs)`, provided every positional
and keyword argument is serialisable by some backend in the registry,
each registry backend decodes what it claims to encode, the registry maps
each backend's id to that backend (with no duplicate ids), the instance
supplies at most as many positional arguments as the definition declares
types, and every keyword-argument name is declared in the definition's
`kwarg_types`. -/
theorem C2_serialize_deserialize_roundtrip (inst : TaskInstance)
    (default_backend : SerializationBackend) (reg : Registry)
    (fresh_id : String) (now : Int)
    (hkeys : ∀ kb ∈ reg, kb.1 = kb.2.id)
    (hnodup : (reg.map (·.1)).Nodup)
    (hcodec : ∀ kb ∈ reg, ∀ v, kb.2.serializable v = true →
        ∃ bs, kb.2.serialize v = some bs ∧ ∀ t, kb.2.deserialize bs t = some v)
    (hargs : ∀ v ∈ inst.args, ∃ kb ∈ reg, kb.2.serializable v = true)
    (hkwargs : ∀ kv ∈ inst.kwargs, ∃ kb ∈ reg, kb.2.serializable kv.2 = true)
    (harity : inst.args.length ≤ inst.defn.arg_types.length)
    (htypes : ∀ kv ∈ inst.kwargs,
        (lookupType inst.defn.kwarg_types kv.1).isSome = true) :
    ∃ rec, serialize_task inst default_backend reg fresh_id now = some rec ∧
      deserialize_task inst.defn rec reg = some (inst.args, inst.kwargs) := by
  obtain ⟨eargs, hencA, hdecA⟩ :=
    args_roundtrip default_backend hkeys hnodup hcodec inst.args
      inst.defn.arg_types hargs harity
  obtain ⟨ekw, hencK, hdecK⟩ :=
    kwargs_roundtrip default_backend hkeys hnodup hcodec inst.defn.kwarg_types
      inst.kwargs hkwargs htypes
  refine ⟨{ id := fresh_id, task_name := inst.defn.name, requeue_count := 0,
            enqueue_time := now, args := eargs, kwargs := ekw }, ?_, ?_⟩
  · show (traverseOption (fun v => serialize v default_backend reg)
        inst.args).bind (fun args =>
      (traverseOption
          (fun kv => (serialize kv.2 default_backend reg).map
            (fun p => (kv.1, p)))
          inst.kwargs).bind (fun kwargs =>
        some ({ id := fresh_id, task_name := inst.defn.name, requeue_count := 0,
                enqueue_time := now, args := args, kwargs := kwargs } : TaskRecord)))
      = some ({ id := fresh_id, task_name := inst.defn.name, requeue_count := 0,
                enqueue_time := now, args := eargs, kwargs := ekw } : TaskRecord)
    rw [hencA, hencK]
    rfl
  · show (traverseOption
        (fun p => (lookupBackend reg p.1.1).bind
          (fun b => b.deserialize p.1.2 p.2))
        (eargs.zip inst.defn.arg_types)).bind (fun args =>
      (traverseOption
          (fun kv => (lookupBackend reg kv.2.1).bind
            (fun b => (lookupType inst.defn.kwarg_types kv.1).bind
              (fun ty => (b.deserialize kv.2.2 ty).map (fun v => (kv.1, v)))))
          ekw).bind (fun kwargs => some (args, kwargs)))
      = some (inst.args, inst.kwargs)
    rw [hdecA, hdecK]
    rfl

/-- Instance with one positional and one keyword argument conforming to its
definition. -/
def instOne : TaskInstance :=
  { defn := { name := "add", arg_types := ["int"], kwarg_types := [("k", "int")] },
    args := [Val.vnat 7], kwargs := [("k", Val.vnat 9)] }

/-- The record `serialize_task` produces for `instOne`. -/
def recOne : TaskRecord :=
  { id := "u-1", task_name := "add", requeue_count := 0, enqueue_time := 0,
    args := [("nat", [7])], kwargs := [("k", ("nat", [9]))] }

/-- C2 witness: the amended round-trip law evaluated on `instOne` over the
one-backend registry `reg1`. -/
theorem C2_serialize_deserialize_roundtrip_witness :
    serialize_task instOne natBackend reg1 "u-1" 0 = some recOne ∧
    deserialize_task instOne.defn recOne reg1
      = some (instOne.args, instOne.kwargs) := by
  have hcodec : ∀ kb ∈ reg1, ∀ v, kb.2.serializable v = true →
      ∃ bs, kb.2.serialize v = some bs ∧ ∀ t, kb.2.deserialize bs t = some v := by
    intro kb hkb v hv
    have hkb' : kb = ("nat", natBackend) := by simpa [reg1] using hkb
    subst hkb'
    cases v with
    | vnat n => exact ⟨[n], rfl, fun t => rfl⟩
    | vstr s => simp [natBackend] at hv
  obtain ⟨rec, h1, h2⟩ :=
    C2_serialize_deserialize_roundtrip instOne natBackend reg1 "u-1" 0
      (by decide) (by decide) hcodec (by decide) (by decide) (by decide) (by decide)
  have hconc : serialize_task instOne natBackend reg1 "u-1" 0 = some recOne := rfl
  rw [hconc] at h1
  cases Option.some.inj h1
  exact ⟨hconc, h2⟩

/-- Instance supplying two positional arguments against a definition
declaring a single type. -/
def instTwo : TaskInstance :=
  { defn := tdOneArg, args := [Val.vnat 1, Val.vnat 2], kwargs := [] }

/-- C2 counterexample: for an instance with more positional arguments than
its definition declares types — every argument serialisable by the
registry — the round trip returns only the first argument:
`deserialize_task` truncates, so the result differs from the original
`(args, kwargs)` and the claim as stated fails. -/
theorem C2_counterexample_arity :
    instTwo.args.all (fun v => reg1.any (fun kb => kb.2.serializable v)) = true ∧
    serialize_task instTwo natBackend reg1 "u-2" 0 = some recTwoArgs ∧
    deserialize_task instTwo.defn recTwoArgs reg1 = some ([Val.vnat 1], []) ∧
    ([Val.vnat 1] : List Val).length < instTwo.args.length := by
  exact ⟨by decide, rfl, rfl, by decide⟩

end AsyncQueue
